import Mathlib

/-!
# Verification of the braille-display conveyor-belt CAD generators

Shallow embedding of the two generators in `src/cad/`:
`conveyor_assembly_jig.py` (flat pattern engine) and `magnetic_pulley.py`
(curved pattern engine).  Real-valued dimensions are embedded as `ℚ`
(exact rational arithmetic) except where the source divides by `math.pi`,
which is embedded as `ℝ` with `Real.pi`.  Solids are embedded as
descriptor records carrying exactly the construction parameters the
source passes to the geometry kernel (sizes, anchors, transform chains).
-/

namespace BrailleDisplay

/-- Modelled from the spec: `build123d_ease.evenly_space_with_center`, the
even-spacing generator, is imported from the external helper library and its
implementation is not under `src/`.  Per the spec contract it returns, for a
given `count`, `spacing` (pitch) and `center` (default 0), the ordered
sequence `center + spacing * (i - (count - 1)/2)` for `i` in `0..count-1`. -/
def evenlySpaceWithCenter (count : ℕ) (spacing : ℚ) (center : ℚ := 0) : List ℚ :=
  (List.range count).map fun (i : ℕ) =>
    center + spacing * ((i : ℚ) - ((count : ℚ) - 1) / 2)

namespace Jig

/-- `Spec` of `src/cad/conveyor_assembly_jig.py`, with the source's default
field values (floats embedded as exact rationals). -/
structure Spec where
  magnet_d : ℚ := 2.1
  magnet_h : ℚ := 1.2
  dot_pitch_x : ℚ := 2.5
  dot_pitch_y : ℚ := 2.5
  cell_pitch_x : ℚ := 6.0
  cell_pitch_y : ℚ := 10.0
  cell_count_x : ℕ := 4
  cell_count_y : ℕ := 2
  total_z : ℚ := 5.0
  arm_width_on_long_side : ℚ := 5.0
  arm_width_along_short_gap : ℚ := 4.0
  arm_gap_width : ℚ := 6.0
  deriving DecidableEq, Repr

/-- `Spec.__post_init__` of the flat jig: the body is empty, so construction
never signals an error.  Embedded as an `Except` to expose the absence of any
raised exception. -/
def Spec.postInit (_ : Spec) : Except String Unit := Except.ok ()

/-- `Spec.total_x`, translated term by term from the source. -/
def Spec.total_x (s : Spec) : ℚ :=
  (s.cell_count_x * s.cell_pitch_x) + (2 * 5.0)
    + (2 * s.arm_width_on_long_side + 2 * s.arm_gap_width)

/-- `Spec.total_y`, translated term by term from the source. -/
def Spec.total_y (s : Spec) : ℚ :=
  (s.cell_count_y * s.cell_pitch_y) + (2 * 5.0)

/-- Descriptor of one subtracted cylindrical magnet pocket of the flat jig:
`bd.Cylinder(magnet_d/2, magnet_h, align=ANCHOR_TOP).translate((dot_x, dot_y,
total_z))`.  With the top-anchored alignment the cylinder spans
`z ∈ [total_z - magnet_h, total_z]` centred at `(dot_x, dot_y)` in the plane. -/
structure MagnetPocket where
  radius : ℚ
  centerX : ℚ
  centerY : ℚ
  zLo : ℚ
  zHi : ℚ
  deriving DecidableEq, Repr

/-- Descriptor of one subtracted arm-gap box:
`bd.Pos(X=...) * bd.Box(arm_gap_width, total_y - 2*arm_width_along_short_gap,
total_z, align=ANCHOR_BOTTOM)`.  The bottom-anchored box spans
`z ∈ [0, total_z]` and `bd.Pos` shifts it only along `x`. -/
structure ArmGap where
  centerX : ℚ
  centerY : ℚ
  sizeX : ℚ
  sizeY : ℚ
  zLo : ℚ
  zHi : ℚ
  deriving DecidableEq, Repr

/-- The magnet-pocket grid of `conveyor_assembly_jig`: the
`itertools.product` of cell centers (evenly spaced at the cell pitches,
centred on 0) with, per cell, the `itertools.product` of the 2×3 dot
positions (evenly spaced at the dot pitches, centred on the cell center). -/
def jigPockets (s : Spec) : List MagnetPocket :=
  ((evenlySpaceWithCenter s.cell_count_x s.cell_pitch_x).product
      (evenlySpaceWithCenter s.cell_count_y s.cell_pitch_y)).flatMap fun cc =>
    ((evenlySpaceWithCenter 2 s.dot_pitch_x cc.1).product
        (evenlySpaceWithCenter 3 s.dot_pitch_y cc.2)).map fun d =>
      { radius := s.magnet_d / 2
        centerX := d.1
        centerY := d.2
        zLo := s.total_z - s.magnet_h
        zHi := s.total_z }

/-- The two arm-gap boxes of `conveyor_assembly_jig`, in source order
(`x_sign = 1` then `x_sign = -1`). -/
def jigArmGaps (s : Spec) : List ArmGap :=
  [(1 : ℚ), -1].map fun x_sign =>
    { centerX := x_sign * (s.total_x / 2 - s.arm_width_on_long_side - s.arm_gap_width / 2)
      centerY := 0
      sizeX := s.arm_gap_width
      sizeY := s.total_y - 2 * s.arm_width_along_short_gap
      zLo := 0
      zHi := s.total_z }

/-- The full flat-engine output: the base box (bottom-anchored, so it spans
`[-total_x/2, total_x/2] × [-total_y/2, total_y/2] × [0, total_z]`), the
subtracted pocket grid and the two subtracted arm gaps. -/
structure Model where
  baseSizeX : ℚ
  baseSizeY : ℚ
  baseZLo : ℚ
  baseZHi : ℚ
  pockets : List MagnetPocket
  armGaps : List ArmGap
  deriving DecidableEq, Repr

/-- `conveyor_assembly_jig(spec)`, as the descriptor of the solids it
composes. -/
def conveyorAssemblyJig (s : Spec) : Model :=
  { baseSizeX := s.total_x
    baseSizeY := s.total_y
    baseZLo := 0
    baseZHi := s.total_z
    pockets := jigPockets s
    armGaps := jigArmGaps s }

end Jig

namespace Pulley

/-- `Spec` of `src/cad/magnetic_pulley.py`, with the source's default field
values.  `cell_pitch_y` is a declared field even though the builder never
reads it (the source comments `cell_count_y = 1` is assumed). -/
structure Spec where
  magnet_d : ℚ := 2.0
  magnet_h : ℚ := 0.6
  dot_pitch_x : ℚ := 2.5
  dot_pitch_y : ℚ := 2.5
  cell_pitch_x : ℚ := 6.0
  cell_pitch_y : ℚ := 10.0
  cell_count_around_circumference : ℕ := 3
  pulley_body_length : ℚ := 8.5
  flange_lip_height : ℚ := 1.2
  center_hole_d : ℚ := 2.0
  deriving DecidableEq, Repr

/-- `Spec.pulley_body_circumference`. -/
def Spec.pulley_body_circumference (s : Spec) : ℚ :=
  s.cell_count_around_circumference * s.cell_pitch_x

/-- `Spec.pulley_body_od = pulley_body_circumference / math.pi`.  The only
place the source leaves exact rational arithmetic. -/
noncomputable def Spec.pulley_body_od (s : Spec) : ℝ :=
  (s.pulley_body_circumference : ℝ) / Real.pi

/-- `Spec.circumference_mm_to_angle(mm) = (mm / pulley_body_circumference) *
360.0`, embedded with total rational division. -/
def Spec.circumference_mm_to_angle (s : Spec) (mm : ℚ) : ℚ :=
  (mm / s.pulley_body_circumference) * 360

/-- `Spec.__post_init__` of the pulley: it computes and logs the derived
quantities (a side effect the spec scopes out) and raises nothing, so
construction never signals an error. -/
def Spec.postInit (_ : Spec) : Except String Unit := Except.ok ()

/-- A rigid transform as the source chains them on the hex-prism pocket:
rotation about the Y axis, translation, rotation about the Z (pulley) axis.
Angles are in degrees, as in the source. -/
inductive Xform where
  | rotY (deg : ℚ)
  | translate (x : ℝ) (y : ℚ) (z : ℚ)
  | rotZ (deg : ℚ)

/-- Action of one transform on a point of `ℝ³`, with degree angles converted
to radians. -/
noncomputable def Xform.apply : Xform → ℝ × ℝ × ℝ → ℝ × ℝ × ℝ
  | .rotY deg, (x, y, z) =>
      (x * Real.cos ((deg : ℝ) * Real.pi / 180) + z * Real.sin ((deg : ℝ) * Real.pi / 180),
        y,
        -x * Real.sin ((deg : ℝ) * Real.pi / 180) + z * Real.cos ((deg : ℝ) * Real.pi / 180))
  | .translate tx ty tz, (x, y, z) => (x + tx, y + (ty : ℝ), z + (tz : ℝ))
  | .rotZ deg, (x, y, z) =>
      (x * Real.cos ((deg : ℝ) * Real.pi / 180) - y * Real.sin ((deg : ℝ) * Real.pi / 180),
        x * Real.sin ((deg : ℝ) * Real.pi / 180) + y * Real.cos ((deg : ℝ) * Real.pi / 180),
        z)

/-- Action of a transform chain, first element applied first, as
`build123d` method chaining does. -/
noncomputable def applyChain (xs : List Xform) (p : ℝ × ℝ × ℝ) : ℝ × ℝ × ℝ :=
  xs.foldl (fun q t => t.apply q) p

/-- Descriptor of one subtracted hexagonal-prism pocket: the extrusion of a
regular hexagon of across-the-flats radius `flatRadius` from `z = 0` to
`z = prismLength`, carried through the transform chain `xforms`. -/
structure PulleyPocket where
  flatRadius : ℚ
  prismLength : ℚ
  xforms : List Xform

/-- The magnet-pocket list of `magnetic_pulley`: for each cell index and each
of the 2×3 dot offsets (evenly spaced at the dot pitches, centred on 0), the
hex prism `radius = magnet_d/2 - 0.1` of length 5, rotated about Y by 90° to
point in +X, translated to `(pulley_body_od/2 - magnet_h, 0, dot_z)`, then
rotated about the pulley axis by
`cell_idx * 360 / cell_count + circumference_mm_to_angle(dot_x)`. -/
noncomputable def pulleyPockets (s : Spec) : List PulleyPocket :=
  (List.range s.cell_count_around_circumference).flatMap fun cell_idx =>
    ((evenlySpaceWithCenter 2 s.dot_pitch_x).product
        (evenlySpaceWithCenter 3 s.dot_pitch_y)).map fun d =>
      { flatRadius := s.magnet_d / 2 - 0.1
        prismLength := 5
        xforms :=
          [Xform.rotY 90,
            Xform.translate (s.pulley_body_od / 2 - (s.magnet_h : ℝ)) 0 d.2,
            Xform.rotZ ((cell_idx : ℚ) * 360 / (s.cell_count_around_circumference : ℚ)
              + s.circumference_mm_to_angle d.1)] }

/-- Descriptor of one added flange ring: a cylinder of the given radius
spanning `z ∈ [zLo, zHi]`. -/
structure Flange where
  radius : ℝ
  zLo : ℚ
  zHi : ℚ

/-- The full curved-engine output: body cylinder (centre-aligned, spanning
`z ∈ [-length/2, length/2]`), pockets, the two flanges (bottom-anchored at
`+length/2`, top-anchored at `-length/2`), and the centre bore (centre
aligned, spanning the body plus both flange lips). -/
structure Model where
  bodyRadius : ℝ
  bodyZLo : ℚ
  bodyZHi : ℚ
  pockets : List PulleyPocket
  flanges : List Flange
  boreRadius : ℚ
  boreZLo : ℚ
  boreZHi : ℚ

/-- `magnetic_pulley(spec)`, as the descriptor of the solids it composes. -/
noncomputable def magneticPulley (s : Spec) : Model :=
  { bodyRadius := s.pulley_body_od / 2
    bodyZLo := -(s.pulley_body_length / 2)
    bodyZHi := s.pulley_body_length / 2
    pockets := pulleyPockets s
    flanges :=
      [{ radius := s.pulley_body_od / 2 + (s.flange_lip_height : ℝ)
         zLo := s.pulley_body_length / 2
         zHi := s.pulley_body_length / 2 + s.flange_lip_height },
        { radius := s.pulley_body_od / 2 + (s.flange_lip_height : ℝ)
          zLo := -(s.pulley_body_length / 2) - s.flange_lip_height
          zHi := -(s.pulley_body_length / 2) }]
    boreRadius := s.center_hole_d / 2
    boreZLo := -((s.pulley_body_length + 2 * s.flange_lip_height) / 2)
    boreZHi := (s.pulley_body_length + 2 * s.flange_lip_height) / 2 }

/-- Squared distance of a point from the pulley (Z) axis. -/
noncomputable def radialDistSq (q : ℝ × ℝ × ℝ) : ℝ := q.1 ^ 2 + q.2.1 ^ 2

/-- The centroid of a pocket solid: before any transform the hex prism
(extruded from `z = 0` to `z = prismLength` about a hexagon centred at the
origin) has centroid `(0, 0, prismLength/2)`; rigid transforms map the
centroid to the transformed centroid. -/
noncomputable def PulleyPocket.centroid (p : PulleyPocket) : ℝ × ℝ × ℝ :=
  applyChain p.xforms (0, 0, (p.prismLength : ℝ) / 2)

/-- The pocket's anchor point: the image of the hexagon's base centre
`(0, 0, 0)` under the transform chain — the reference point the source
translates to radius `pulley_body_od/2 - magnet_h`. -/
noncomputable def PulleyPocket.anchor (p : PulleyPocket) : ℝ × ℝ × ℝ :=
  applyChain p.xforms (0, 0, 0)

/-- Checked rational division, refining the source's float division which
raises `ZeroDivisionError` on a zero divisor. -/
def checkedDiv (a b : ℚ) : Except String ℚ :=
  if b = 0 then Except.error "ZeroDivisionError" else Except.ok (a / b)

/-- `circumference_mm_to_angle` with the division checked. -/
def Spec.circumference_mm_to_angleChecked (s : Spec) (mm : ℚ) : Except String ℚ :=
  (checkedDiv mm s.pulley_body_circumference).map (· * 360)

/-- The cell base-angle computation `cell_idx * 360 /
cell_count_around_circumference` with the division checked. -/
def Spec.baseAngleChecked (s : Spec) (cell_idx : ℕ) : Except String ℚ :=
  checkedDiv ((cell_idx : ℚ) * 360) (s.cell_count_around_circumference : ℚ)

end Pulley

/-- The flat jig `Spec()` with all default field values. -/
def jigDefault : Jig.Spec := {}

/-- The pulley `Spec()` with all default field values. -/
def pulleyDefault : Pulley.Spec := {}

/-- A pulley `Spec` violating the stated invariant `center_hole_d <
pulley_body_od` (its outer diameter is `18/π ≈ 5.73`, far below the 100 mm
bore). -/
def pulleyBadSpec : Pulley.Spec := { center_hole_d := 100 }

/-- A flat-jig `Spec` with positive pitches and counts `≥ 1` whose magnet
depth (100) exceeds twice the slab height, pushing the pocket centroids
below the slab. -/
def jigTallMagnetSpec : Jig.Spec := { magnet_h := 100 }

/-- The z coordinate of the centroid of a flat-jig pocket cylinder. -/
def Jig.MagnetPocket.centerZ (q : Jig.MagnetPocket) : ℚ := (q.zLo + q.zHi) / 2

/-!  ## Helper lemmas about the even-spacing generator  -/

theorem evenlySpaceWithCenter_length (count : ℕ) (spacing center : ℚ) :
    (evenlySpaceWithCenter count spacing center).length = count := by
  unfold evenlySpaceWithCenter
  rw [List.length_map, List.length_range]

theorem evenlySpaceWithCenter_getElem (count : ℕ) (spacing center : ℚ)
    (i : ℕ) (hi : i < count) :
    (evenlySpaceWithCenter count spacing center)[i]? =
      some (center + spacing * ((i : ℚ) - ((count : ℚ) - 1) / 2)) := by
  unfold evenlySpaceWithCenter
  rw [List.getElem?_map, List.getElem?_range hi]
  rfl

theorem evenlySpaceWithCenter_mem (count : ℕ) (spacing center : ℚ) (x : ℚ)
    (hx : x ∈ evenlySpaceWithCenter count spacing center) :
    ∃ i : ℕ, i < count ∧ x = center + spacing * ((i : ℚ) - ((count : ℚ) - 1) / 2) := by
  unfold evenlySpaceWithCenter at hx
  rw [List.mem_map] at hx
  obtain ⟨i, hi, rfl⟩ := hx
  exact ⟨i, List.mem_range.mp hi, rfl⟩

/-- Every element of the evenly spaced list stays within half the grid extent
of the center, provided the pitch is nonnegative. -/
theorem evenlySpaceWithCenter_abs_le (count : ℕ) (spacing center : ℚ)
    (hs : 0 ≤ spacing) (x : ℚ)
    (hx : x ∈ evenlySpaceWithCenter count spacing center) :
    |x - center| ≤ spacing * ((count : ℚ) - 1) / 2 := by
  obtain ⟨i, hi, rfl⟩ := evenlySpaceWithCenter_mem count spacing center x hx
  have h1 : (i : ℚ) ≤ (count : ℚ) - 1 := by
    have : (i : ℚ) + 1 ≤ (count : ℚ) := by exact_mod_cast hi
    linarith
  have h0 : (0 : ℚ) ≤ (i : ℚ) := Nat.cast_nonneg i
  have habs : |(i : ℚ) - ((count : ℚ) - 1) / 2| ≤ ((count : ℚ) - 1) / 2 := by
    rw [abs_le]
    constructor <;> linarith
  calc |center + spacing * ((i : ℚ) - ((count : ℚ) - 1) / 2) - center|
      = spacing * |(i : ℚ) - ((count : ℚ) - 1) / 2| := by
        rw [add_sub_cancel_left, abs_mul, abs_of_nonneg hs]
    _ ≤ spacing * (((count : ℚ) - 1) / 2) := mul_le_mul_of_nonneg_left habs hs
    _ = spacing * ((count : ℚ) - 1) / 2 := by ring

theorem sum_map_range (f : ℕ → ℚ) (n : ℕ) :
    ((List.range n).map f).sum = ∑ i ∈ Finset.range n, f i := by
  induction n with
  | zero => simp
  | succ n ih =>
      rw [List.range_succ, List.map_append, List.sum_append, Finset.sum_range_succ, ih]
      simp

theorem sum_range_cast (n : ℕ) :
    ∑ i ∈ Finset.range n, (i : ℚ) = (n : ℚ) * ((n : ℚ) - 1) / 2 := by
  induction n with
  | zero => simp
  | succ n ih =>
      rw [Finset.sum_range_succ, ih]
      push_cast
      ring

/-- The evenly spaced values sum to `count * center`, hence their mean is the
center. -/
theorem evenlySpaceWithCenter_sum (count : ℕ) (spacing center : ℚ) :
    (evenlySpaceWithCenter count spacing center).sum = count * center := by
  unfold evenlySpaceWithCenter
  rw [sum_map_range, Finset.sum_add_distrib, Finset.sum_const, Finset.card_range]
  have h2 : ∑ i ∈ Finset.range count, spacing * ((i : ℚ) - ((count : ℚ) - 1) / 2)
      = spacing * ((∑ i ∈ Finset.range count, (i : ℚ))
          - count * (((count : ℚ) - 1) / 2)) := by
    rw [← Finset.mul_sum, Finset.sum_sub_distrib, Finset.sum_const, Finset.card_range]
    simp [nsmul_eq_mul]
  rw [h2, sum_range_cast, nsmul_eq_mul]
  ring

/-- The evenly spaced values are strictly increasing for a positive pitch. -/
theorem evenlySpaceWithCenter_sorted (count : ℕ) (spacing center : ℚ)
    (hs : 0 < spacing) :
    List.Pairwise (· < ·) (evenlySpaceWithCenter count spacing center) := by
  unfold evenlySpaceWithCenter
  rw [List.pairwise_map]
  refine (List.pairwise_lt_range count).imp ?_
  intro a b hab
  have hq : (a : ℚ) < (b : ℚ) := by exact_mod_cast hab
  have := mul_lt_mul_of_pos_left
    (sub_lt_sub_right hq (((count : ℚ) - 1) / 2)) hs
  linarith

/-- The two dot positions across a cell (`count = 2`, centred on 0). -/
theorem evenlySpaceWithCenter_two (p : ℚ) :
    evenlySpaceWithCenter 2 p = [-(p / 2), p / 2] := by
  unfold evenlySpaceWithCenter
  rw [show List.range 2 = [0, 1] from rfl]
  norm_num
  ring

/-- The three dot positions along a cell (`count = 3`, centred on 0). -/
theorem evenlySpaceWithCenter_three (p : ℚ) :
    evenlySpaceWithCenter 3 p = [-p, 0, p] := by
  unfold evenlySpaceWithCenter
  rw [show List.range 3 = [0, 1, 2] from rfl]
  norm_num

/-- The 2×3 dot-offset grid of one braille cell, centred on 0, in
`itertools.product` order. -/
theorem dot_grid_product (px py : ℚ) :
    (evenlySpaceWithCenter 2 px).product (evenlySpaceWithCenter 3 py) =
      [(-(px / 2), -py), (-(px / 2), 0), (-(px / 2), py),
        (px / 2, -py), (px / 2, 0), (px / 2, py)] := by
  rw [evenlySpaceWithCenter_two, evenlySpaceWithCenter_three]
  simp [List.product]

theorem flatMap_range_length {α : Type} (g : ℕ → List α) (L : ℕ)
    (hg : ∀ k, (g k).length = L) (c : ℕ) :
    ((List.range c).flatMap g).length = c * L := by
  induction c with
  | zero => simp
  | succ c ih =>
      rw [List.range_succ, List.flatMap_append, List.length_append, ih]
      simp [hg, Nat.succ_mul]

theorem flatMap_range_getElem {α : Type} (g : ℕ → List α) (L : ℕ)
    (hg : ∀ k, (g k).length = L) (c k m : ℕ) (hk : k < c) (hm : m < L) :
    ((List.range c).flatMap g)[k * L + m]? = (g k)[m]? := by
  induction c with
  | zero => omega
  | succ c ih =>
      rw [List.range_succ, List.flatMap_append, List.getElem?_append,
        flatMap_range_length g L hg c]
      rcases Nat.lt_or_ge k c with h | h
      · have hlen : k * L + m < c * L := by
          calc k * L + m < k * L + L := by omega
            _ = (k + 1) * L := (Nat.succ_mul k L).symm
            _ ≤ c * L := Nat.mul_le_mul_right L (by omega)
        rw [if_pos hlen]
        exact ih h
      · have hkc : k = c := by omega
        subst hkc
        rw [if_neg (by omega), Nat.add_sub_cancel_left]
        simp

theorem evenlySpaceWithCenter_mem_mk (count : ℕ) (spacing center : ℚ)
    (i : ℕ) (hi : i < count) :
    center + spacing * ((i : ℚ) - ((count : ℚ) - 1) / 2)
      ∈ evenlySpaceWithCenter count spacing center := by
  unfold evenlySpaceWithCenter
  exact List.mem_map.mpr ⟨i, List.mem_range.mpr hi, rfl⟩

/-- Image of a point of the prism axis under the source's transform chain:
rotate about Y by 90° (sending `+Z` to `+X`), translate, rotate about Z. -/
theorem applyChain_shape (X : ℝ) (z θ : ℚ) (w : ℝ) :
    Pulley.applyChain
        [Pulley.Xform.rotY 90, Pulley.Xform.translate X 0 z, Pulley.Xform.rotZ θ]
        (0, 0, w)
      = ((w + X) * Real.cos ((θ : ℝ) * Real.pi / 180),
          (w + X) * Real.sin ((θ : ℝ) * Real.pi / 180),
          (z : ℝ)) := by
  unfold Pulley.applyChain
  simp only [List.foldl, Pulley.Xform.apply]
  have h90 : (((90 : ℚ) : ℝ)) * Real.pi / 180 = Real.pi / 2 := by
    push_cast
    ring
  rw [h90, Real.cos_pi_div_two, Real.sin_pi_div_two]
  norm_num

/-- Squared axis distance of a transform-chain image of an axis point: the
final rotation about the pulley axis preserves it. -/
theorem radialDistSq_applyChain (X : ℝ) (z θ : ℚ) (w : ℝ) :
    Pulley.radialDistSq
        (Pulley.applyChain
          [Pulley.Xform.rotY 90, Pulley.Xform.translate X 0 z, Pulley.Xform.rotZ θ]
          (0, 0, w))
      = (w + X) ^ 2 := by
  rw [applyChain_shape]
  unfold Pulley.radialDistSq
  calc ((w + X) * Real.cos ((θ : ℝ) * Real.pi / 180)) ^ 2
        + ((w + X) * Real.sin ((θ : ℝ) * Real.pi / 180)) ^ 2
      = (w + X) ^ 2 * (Real.sin ((θ : ℝ) * Real.pi / 180) ^ 2
          + Real.cos ((θ : ℝ) * Real.pi / 180) ^ 2) := by ring
    _ = (w + X) ^ 2 := by rw [Real.sin_sq_add_cos_sq, mul_one]

/-- Every pocket the curved engine subtracts has the fixed prism length, the
fixed radial translate target, and an axial offset from the 3-dot grid. -/
theorem pulleyPockets_shape (s : Pulley.Spec) (p : Pulley.PulleyPocket)
    (hp : p ∈ Pulley.pulleyPockets s) :
    ∃ z θ : ℚ, z ∈ evenlySpaceWithCenter 3 s.dot_pitch_y
      ∧ p.prismLength = 5
      ∧ p.xforms = [Pulley.Xform.rotY 90,
          Pulley.Xform.translate (s.pulley_body_od / 2 - (s.magnet_h : ℝ)) 0 z,
          Pulley.Xform.rotZ θ] := by
  unfold Pulley.pulleyPockets at hp
  rw [List.mem_flatMap] at hp
  obtain ⟨k, _, hp⟩ := hp
  rw [List.mem_map] at hp
  obtain ⟨d, hd, rfl⟩ := hp
  obtain ⟨d1, d2⟩ := d
  have hd2 := List.mem_product.mp (show (d1, d2) ∈ (evenlySpaceWithCenter 2 s.dot_pitch_x)
    ×ˢ (evenlySpaceWithCenter 3 s.dot_pitch_y) from hd)
  exact ⟨d2, _, hd2.2, rfl, rfl⟩

/-- Every pocket the flat engine subtracts is a cylinder of radius
`magnet_d/2` spanning `z ∈ [total_z - magnet_h, total_z]`, centred at a
cell centre plus a dot offset of the 2×3 grid. -/
theorem jigPockets_shape (s : Jig.Spec) (q : Jig.MagnetPocket)
    (hq : q ∈ Jig.jigPockets s) :
    ∃ cx cy dx dy : ℚ,
      cx ∈ evenlySpaceWithCenter s.cell_count_x s.cell_pitch_x
        ∧ cy ∈ evenlySpaceWithCenter s.cell_count_y s.cell_pitch_y
        ∧ dx ∈ evenlySpaceWithCenter 2 s.dot_pitch_x cx
        ∧ dy ∈ evenlySpaceWithCenter 3 s.dot_pitch_y cy
        ∧ q = { radius := s.magnet_d / 2, centerX := dx, centerY := dy,
                zLo := s.total_z - s.magnet_h, zHi := s.total_z } := by
  unfold Jig.jigPockets at hq
  rw [List.mem_flatMap] at hq
  obtain ⟨cc, hcc, hq⟩ := hq
  obtain ⟨c1, c2⟩ := cc
  have hcc2 := List.mem_product.mp
    (show (c1, c2) ∈ (evenlySpaceWithCenter s.cell_count_x s.cell_pitch_x)
      ×ˢ (evenlySpaceWithCenter s.cell_count_y s.cell_pitch_y) from hcc)
  rw [List.mem_map] at hq
  obtain ⟨d, hd, rfl⟩ := hq
  obtain ⟨d1, d2⟩ := d
  have hd2 := List.mem_product.mp
    (show (d1, d2) ∈ (evenlySpaceWithCenter 2 s.dot_pitch_x c1)
      ×ˢ (evenlySpaceWithCenter 3 s.dot_pitch_y c2) from hd)
  exact ⟨c1, c2, d1, d2, hcc2.1, hcc2.2, hd2.1, hd2.2, rfl⟩

/-!  ## Claim theorems  -/

/-- C1: for every `count ≥ 1`, `pitch > 0` and `center`, the even-spacing
generator returns an ordered (strictly increasing) sequence of exactly
`count` values `center + pitch*(i - (count-1)/2)` for `i` in `0..count-1`;
the values are symmetric about the center, their sum is `count * center` (so
the mean is the center), adjacent values differ by exactly the pitch,
`count = 1` returns `[center]`, and `count = 0` returns the empty sequence. -/
theorem evenly_space_contract (count : ℕ) (pitch center : ℚ)
    (hcount : 1 ≤ count) (hpitch : 0 < pitch) :
    (evenlySpaceWithCenter count pitch center).length = count
      ∧ (∀ i : ℕ, i < count →
          (evenlySpaceWithCenter count pitch center)[i]? =
            some (center + pitch * ((i : ℚ) - ((count : ℚ) - 1) / 2)))
      ∧ List.Pairwise (· < ·) (evenlySpaceWithCenter count pitch center)
      ∧ (∀ i : ℕ, i < count → ∀ x y : ℚ,
          (evenlySpaceWithCenter count pitch center)[i]? = some x →
          (evenlySpaceWithCenter count pitch center)[count - 1 - i]? = some y →
          x + y = 2 * center)
      ∧ (evenlySpaceWithCenter count pitch center).sum = count * center
      ∧ (evenlySpaceWithCenter count pitch center).sum / (count : ℚ) = center
      ∧ (∀ i : ℕ, i + 1 < count → ∀ x y : ℚ,
          (evenlySpaceWithCenter count pitch center)[i]? = some x →
          (evenlySpaceWithCenter count pitch center)[i + 1]? = some y →
          y - x = pitch)
      ∧ evenlySpaceWithCenter 1 pitch center = [center]
      ∧ evenlySpaceWithCenter 0 pitch center = [] := by
  have hne : (count : ℚ) ≠ 0 := Nat.cast_ne_zero.mpr (by omega)
  refine ⟨evenlySpaceWithCenter_length count pitch center,
    fun i hi => evenlySpaceWithCenter_getElem count pitch center i hi,
    evenlySpaceWithCenter_sorted count pitch center hpitch,
    ?_, evenlySpaceWithCenter_sum count pitch center, ?_, ?_, ?_, rfl⟩
  · intro i hi x y hx hy
    have hj : count - 1 - i < count := by omega
    rw [evenlySpaceWithCenter_getElem count pitch center i hi] at hx
    rw [evenlySpaceWithCenter_getElem count pitch center _ hj] at hy
    have hxv := Option.some.inj hx
    have hyv := Option.some.inj hy
    have hcast : ((count - 1 - i : ℕ) : ℚ) = (count : ℚ) - 1 - (i : ℚ) := by
      have h1 : i ≤ count - 1 := by omega
      have h2 : 1 ≤ count := hcount
      push_cast [Nat.cast_sub h1, Nat.cast_sub h2]
      ring
    rw [hcast] at hyv
    rw [← hxv, ← hyv]
    ring
  · rw [evenlySpaceWithCenter_sum count pitch center, mul_comm,
      mul_div_assoc, div_self hne, mul_one]
  · intro i hi x y hx hy
    rw [evenlySpaceWithCenter_getElem count pitch center i (by omega)] at hx
    rw [evenlySpaceWithCenter_getElem count pitch center (i + 1) hi] at hy
    have hxv := Option.some.inj hx
    have hyv := Option.some.inj hy
    rw [← hxv, ← hyv]
    push_cast
    ring
  · unfold evenlySpaceWithCenter
    rw [show List.range 1 = [0] from rfl]
    norm_num

/-- Witness for C1 at `count = 3`, `pitch = 2`, `center = 5`. -/
theorem evenly_space_contract_witness :
    (1 ≤ 3 ∧ (0 : ℚ) < 2)
      ∧ ((evenlySpaceWithCenter 3 2 5).length = 3
        ∧ (∀ i : ℕ, i < 3 →
            (evenlySpaceWithCenter 3 2 5)[i]? =
              some (5 + 2 * ((i : ℚ) - ((3 : ℚ) - 1) / 2)))
        ∧ List.Pairwise (· < ·) (evenlySpaceWithCenter 3 2 5)
        ∧ (∀ i : ℕ, i < 3 → ∀ x y : ℚ,
            (evenlySpaceWithCenter 3 2 5)[i]? = some x →
            (evenlySpaceWithCenter 3 2 5)[3 - 1 - i]? = some y →
            x + y = 2 * 5)
        ∧ (evenlySpaceWithCenter 3 2 5).sum = 3 * 5
        ∧ (evenlySpaceWithCenter 3 2 5).sum / ((3 : ℕ) : ℚ) = 5
        ∧ (∀ i : ℕ, i + 1 < 3 → ∀ x y : ℚ,
            (evenlySpaceWithCenter 3 2 5)[i]? = some x →
            (evenlySpaceWithCenter 3 2 5)[i + 1]? = some y →
            y - x = 2)
        ∧ evenlySpaceWithCenter 1 2 5 = [5]
        ∧ evenlySpaceWithCenter 0 2 5 = []) :=
  ⟨⟨by omega, by norm_num⟩, by
    have h := evenly_space_contract 3 2 5 (by omega) (by norm_num)
    exact_mod_cast h⟩

/-- C6: for every flat-jig `Spec`, `total_x = cell_count_x*cell_pitch_x + 10 +
2*(arm_width_on_long_side + arm_gap_width)` and `total_y = cell_count_y *
cell_pitch_y + 10`; in particular at the defaults (`cell_count_x=4,
cell_count_y=2, cell_pitch_x=6, cell_pitch_y=10`), `total_x = 4*6 + 10 +
2*(5+6) = 56` and `total_y = 2*10 + 10 = 30`. -/
theorem jig_total_dimensions (s : Jig.Spec) :
    s.total_x = s.cell_count_x * s.cell_pitch_x + 10
        + 2 * (s.arm_width_on_long_side + s.arm_gap_width)
      ∧ s.total_y = s.cell_count_y * s.cell_pitch_y + 10
      ∧ jigDefault.total_x = 4 * 6 + 10
          + 2 * (jigDefault.arm_width_on_long_side + jigDefault.arm_gap_width)
      ∧ jigDefault.total_x = 56 ∧ jigDefault.total_y = 30 := by
  refine ⟨?_, ?_, ?_, ?_, ?_⟩
  · unfold Jig.Spec.total_x
    ring
  · unfold Jig.Spec.total_y
    ring
  · norm_num [jigDefault, Jig.Spec.total_x]
  · norm_num [jigDefault, Jig.Spec.total_x]
  · norm_num [jigDefault, Jig.Spec.total_y]

/-- C7: for every pulley `Spec`, `pulley_body_circumference =
cell_count_around_circumference * cell_pitch_x` and `pulley_body_od =
pulley_body_circumference / π`; in particular at the defaults
(`cell_count_around_circumference=3, cell_pitch_x=6`) the circumference is 18
and the outer diameter is `18/π`. -/
theorem pulley_derived_dimensions (s : Pulley.Spec) :
    s.pulley_body_circumference = s.cell_count_around_circumference * s.cell_pitch_x
      ∧ s.pulley_body_od = (s.pulley_body_circumference : ℝ) / Real.pi
      ∧ s.pulley_body_od * Real.pi = (s.pulley_body_circumference : ℝ)
      ∧ pulleyDefault.pulley_body_circumference = 18
      ∧ pulleyDefault.pulley_body_od = 18 / Real.pi := by
  refine ⟨rfl, rfl, ?_, by norm_num [pulleyDefault, Pulley.Spec.pulley_body_circumference], ?_⟩
  · exact div_mul_cancel₀ _ Real.pi_ne_zero
  · show ((pulleyDefault.pulley_body_circumference : ℚ) : ℝ) / Real.pi = 18 / Real.pi
    norm_num [Pulley.Spec.pulley_body_circumference, pulleyDefault]

/-- C9: `magnetic_pulley` is oblivious to `cell_pitch_y`: two pulley Specs
that differ only in `cell_pitch_y` produce identical models (body, pockets,
flanges, bore). -/
theorem pulley_independent_of_cell_pitch_y (s : Pulley.Spec) (c : ℚ) :
    Pulley.magneticPulley { s with cell_pitch_y := c } = Pulley.magneticPulley s := rfl

/-- C4: for every pulley `Spec` with a positive circumference,
`circumference_mm_to_angle(mm) = (mm / pulley_body_circumference) * 360` for
every signed offset `mm` (no wraparound clamping), the map is linear in the
offset, and the full circumference maps to exactly 360 degrees. -/
theorem circumference_to_angle_linear (s : Pulley.Spec)
    (hC : 0 < s.pulley_body_circumference) :
    (∀ mm : ℚ, s.circumference_mm_to_angle mm = mm / s.pulley_body_circumference * 360)
      ∧ (∀ c : ℚ, s.circumference_mm_to_angle (2 * c) = 2 * s.circumference_mm_to_angle c)
      ∧ s.circumference_mm_to_angle s.pulley_body_circumference = 360 := by
  refine ⟨fun mm => rfl, fun c => ?_, ?_⟩
  · unfold Pulley.Spec.circumference_mm_to_angle
    ring
  · unfold Pulley.Spec.circumference_mm_to_angle
    rw [div_self hC.ne']
    norm_num

/-- Witness for C4 at the default pulley `Spec`. -/
theorem circumference_to_angle_linear_witness :
    0 < pulleyDefault.pulley_body_circumference
      ∧ ((∀ mm : ℚ, pulleyDefault.circumference_mm_to_angle mm
              = mm / pulleyDefault.pulley_body_circumference * 360)
        ∧ (∀ c : ℚ, pulleyDefault.circumference_mm_to_angle (2 * c)
              = 2 * pulleyDefault.circumference_mm_to_angle c)
        ∧ pulleyDefault.circumference_mm_to_angle pulleyDefault.pulley_body_circumference
            = 360) :=
  ⟨by norm_num [pulleyDefault, Pulley.Spec.pulley_body_circumference],
    circumference_to_angle_linear pulleyDefault
      (by norm_num [pulleyDefault, Pulley.Spec.pulley_body_circumference])⟩

/-- C3 counterexample: a pulley `Spec` whose `center_hole_d` (100) exceeds its
`pulley_body_od` (`18/π`) still constructs without any error: `__post_init__`
performs no validation. -/
theorem postInit_no_validation_cex :
    Pulley.Spec.postInit pulleyBadSpec = Except.ok ()
      ∧ Pulley.Spec.pulley_body_od pulleyBadSpec
          < ((Pulley.Spec.center_hole_d pulleyBadSpec : ℚ) : ℝ) := by
  refine ⟨rfl, ?_⟩
  have hC : ((Pulley.Spec.pulley_body_circumference pulleyBadSpec : ℚ) : ℝ) = 18 := by
    norm_num [Pulley.Spec.pulley_body_circumference, pulleyBadSpec]
  have hd : ((Pulley.Spec.center_hole_d pulleyBadSpec : ℚ) : ℝ) = 100 := by
    norm_num [pulleyBadSpec]
  unfold Pulley.Spec.pulley_body_od
  rw [hC, hd, div_lt_iff₀ Real.pi_pos]
  nlinarith [Real.pi_gt_three]

/-- C3 amended: `Spec` construction never fails for either engine — the
post-init hooks validate nothing (flat jig: empty body; pulley: logs derived
quantities only), so every parameter set constructs successfully, including
ones violating the spec's stated invariants. -/
theorem postInit_always_ok (j : Jig.Spec) (p : Pulley.Spec) :
    j.postInit = Except.ok () ∧ p.postInit = Except.ok () := ⟨rfl, rfl⟩

/-- C8: the flat engine subtracts exactly two rectangular slot gaps, centred
at `x = ±(total_x/2 - arm_width_on_long_side - arm_gap_width/2)`, `y = 0`,
with x-extent `arm_gap_width`, y-extent `total_y - 2*arm_width_along_short_gap`
and z-extent the full slab height (from `z = 0` to `z = total_z`). -/
theorem jig_arm_gaps_spec (s : Jig.Spec) :
    (Jig.conveyorAssemblyJig s).armGaps =
      [{ centerX := s.total_x / 2 - s.arm_width_on_long_side - s.arm_gap_width / 2
         centerY := 0
         sizeX := s.arm_gap_width
         sizeY := s.total_y - 2 * s.arm_width_along_short_gap
         zLo := 0
         zHi := s.total_z },
        { centerX := -(s.total_x / 2 - s.arm_width_on_long_side - s.arm_gap_width / 2)
          centerY := 0
          sizeX := s.arm_gap_width
          sizeY := s.total_y - 2 * s.arm_width_along_short_gap
          zLo := 0
          zHi := s.total_z }] := by
  unfold Jig.conveyorAssemblyJig Jig.jigArmGaps
  simp only [List.map_cons, List.map_nil]
  rw [one_mul ((s.total_x : ℚ) / 2 - s.arm_width_on_long_side - s.arm_gap_width / 2),
    neg_one_mul ((s.total_x : ℚ) / 2 - s.arm_width_on_long_side - s.arm_gap_width / 2)]

/-- C10: with at least one cell and a positive `cell_pitch_x`, the divisions
of the curved engine never divide by zero: the circumference is nonzero, so
both `circumference_mm_to_angle` and the cell base-angle computation succeed
in the checked embedding, agreeing with the total one. -/
theorem pulley_division_safe (s : Pulley.Spec)
    (hcount : 1 ≤ s.cell_count_around_circumference) (hpitch : 0 < s.cell_pitch_x) :
    s.pulley_body_circumference ≠ 0
      ∧ (∀ mm : ℚ, s.circumference_mm_to_angleChecked mm
          = Except.ok (s.circumference_mm_to_angle mm))
      ∧ (s.cell_count_around_circumference : ℚ) ≠ 0
      ∧ (∀ cell_idx : ℕ, s.baseAngleChecked cell_idx
          = Except.ok ((cell_idx : ℚ) * 360 / (s.cell_count_around_circumference : ℚ))) := by
  have hn : (0 : ℚ) < (s.cell_count_around_circumference : ℚ) := by
    exact_mod_cast Nat.lt_of_lt_of_le Nat.zero_lt_one hcount
  have hC : 0 < s.pulley_body_circumference := mul_pos hn hpitch
  refine ⟨hC.ne', fun mm => ?_, hn.ne', fun cell_idx => ?_⟩
  · simp [Pulley.Spec.circumference_mm_to_angleChecked, Pulley.checkedDiv, hC.ne',
      Pulley.Spec.circumference_mm_to_angle, Except.map]
  · simp [Pulley.Spec.baseAngleChecked, Pulley.checkedDiv, hn.ne']

/-- C2: for every pulley `Spec`, cell index `k` and dot offset `(i, j)` of the
2×3 grid, the curved engine's pocket is a hexagonal prism of across-the-flats
radius `magnet_d/2 - 0.1`, extruded along its axis (length 5), and its
transform chain is, in exactly this order: rotate about Y by 90° (extrusion
axis made radial), translate to radial position `pulley_body_od/2 - magnet_h`
at the dot's axial coordinate, then rotate about the pulley (Z) axis by the
absolute angle `k*360/cell_count_around_circumference +
circumference_mm_to_angle(dot circumferential offset)`. -/
theorem pulley_pocket_construction (s : Pulley.Spec) (k i j : ℕ)
    (hk : k < s.cell_count_around_circumference) (hi : i < 2) (hj : j < 3) :
    (Pulley.pulleyPockets s).length = s.cell_count_around_circumference * 6
      ∧ (Pulley.pulleyPockets s)[k * 6 + (i * 3 + j)]? =
        some { flatRadius := s.magnet_d / 2 - 0.1
               prismLength := 5
               xforms := [Pulley.Xform.rotY 90,
                 Pulley.Xform.translate (s.pulley_body_od / 2 - (s.magnet_h : ℝ)) 0
                   (((j : ℚ) - 1) * s.dot_pitch_y),
                 Pulley.Xform.rotZ
                   ((k : ℚ) * 360 / (s.cell_count_around_circumference : ℚ)
                     + s.circumference_mm_to_angle (((i : ℚ) - 1 / 2) * s.dot_pitch_x))] } := by
  unfold Pulley.pulleyPockets
  simp only [dot_grid_product, List.map_cons, List.map_nil]
  constructor
  · apply flatMap_range_length
    intro t
    rfl
  · refine Eq.trans (flatMap_range_getElem _ 6 (fun t => ?_) s.cell_count_around_circumference
      k (i * 3 + j) hk (by omega)) ?_
    · rfl
    · interval_cases i <;> interval_cases j <;>
        · try simp only [List.getElem?_cons_zero, List.getElem?_cons_succ, Option.some.injEq,
            Pulley.PulleyPocket.mk.injEq, List.cons.injEq, Pulley.Xform.translate.injEq,
            Pulley.Xform.rotZ.injEq, and_true, true_and]
          try norm_num
          try exact congrArg _ (by ring)

/-- C5 counterexample: the claim fails on both engines.  At the default
pulley `Spec` every hex-prism pocket centroid sits at squared axis distance
`(pulley_body_od/2 + 1.9)² ≥ (pulley_body_od/2)²` — outside the body cylinder
(the prism of length 5 deliberately overshoots the surface).  For a flat-jig
`Spec` with positive pitches and counts ≥ 1 but `magnet_h = 100`, the pocket
centroids sit at `z = total_z - magnet_h/2 = -45 < 0`, below the slab. -/
theorem pocket_center_envelope_cex :
    (∃ p ∈ Pulley.pulleyPockets pulleyDefault,
        (Pulley.Spec.pulley_body_od pulleyDefault / 2) ^ 2
          ≤ Pulley.radialDistSq (Pulley.PulleyPocket.centroid p))
      ∧ ∃ q ∈ Jig.jigPockets jigTallMagnetSpec, Jig.MagnetPocket.centerZ q < 0 := by
  constructor
  · have hlen : (Pulley.pulleyPockets pulleyDefault).length = 18 := by
      unfold Pulley.pulleyPockets
      simp only [dot_grid_product, List.map_cons, List.map_nil]
      refine Eq.trans (flatMap_range_length _ 6 (fun t => ?_)
        pulleyDefault.cell_count_around_circumference) ?_
      · rfl
      · norm_num [pulleyDefault]
    have hne : Pulley.pulleyPockets pulleyDefault ≠ [] := by
      intro h
      rw [h] at hlen
      simp at hlen
    obtain ⟨p, hp⟩ := List.exists_mem_of_ne_nil _ hne
    refine ⟨p, hp, ?_⟩
    obtain ⟨z, θ, _, hL, hxf⟩ := pulleyPockets_shape pulleyDefault p hp
    unfold Pulley.PulleyPocket.centroid
    rw [hxf, hL, radialDistSq_applyChain]
    have hod : (0 : ℝ) < Pulley.Spec.pulley_body_od pulleyDefault := by
      have hc : ((Pulley.Spec.pulley_body_circumference pulleyDefault : ℚ) : ℝ) = 18 := by
        norm_num [Pulley.Spec.pulley_body_circumference, pulleyDefault]
      unfold Pulley.Spec.pulley_body_od
      rw [hc]
      positivity
    have hmh : ((Pulley.Spec.magnet_h pulleyDefault : ℚ) : ℝ) = 0.6 := by
      norm_num [pulleyDefault]
    rw [hmh]
    push_cast
    nlinarith [hod]
  · have hcx := evenlySpaceWithCenter_mem_mk jigTallMagnetSpec.cell_count_x
      jigTallMagnetSpec.cell_pitch_x 0 0 (by norm_num [jigTallMagnetSpec])
    have hcy := evenlySpaceWithCenter_mem_mk jigTallMagnetSpec.cell_count_y
      jigTallMagnetSpec.cell_pitch_y 0 0 (by norm_num [jigTallMagnetSpec])
    have hdx := evenlySpaceWithCenter_mem_mk 2 jigTallMagnetSpec.dot_pitch_x
      (0 + jigTallMagnetSpec.cell_pitch_x * (((0 : ℕ) : ℚ)
        - ((jigTallMagnetSpec.cell_count_x : ℚ) - 1) / 2)) 0 (by norm_num)
    have hdy := evenlySpaceWithCenter_mem_mk 3 jigTallMagnetSpec.dot_pitch_y
      (0 + jigTallMagnetSpec.cell_pitch_y * (((0 : ℕ) : ℚ)
        - ((jigTallMagnetSpec.cell_count_y : ℚ) - 1) / 2)) 0 (by norm_num)
    refine ⟨{ radius := jigTallMagnetSpec.magnet_d / 2
              centerX := 0 + jigTallMagnetSpec.cell_pitch_x * (((0 : ℕ) : ℚ)
                    - ((jigTallMagnetSpec.cell_count_x : ℚ) - 1) / 2)
                  + jigTallMagnetSpec.dot_pitch_x * (((0 : ℕ) : ℚ)
                    - (((2 : ℕ) : ℚ) - 1) / 2)
              centerY := 0 + jigTallMagnetSpec.cell_pitch_y * (((0 : ℕ) : ℚ)
                    - ((jigTallMagnetSpec.cell_count_y : ℚ) - 1) / 2)
                  + jigTallMagnetSpec.dot_pitch_y * (((0 : ℕ) : ℚ)
                    - (((3 : ℕ) : ℚ) - 1) / 2)
              zLo := jigTallMagnetSpec.total_z - jigTallMagnetSpec.magnet_h
              zHi := jigTallMagnetSpec.total_z }, ?_, ?_⟩
    · unfold Jig.jigPockets
      refine List.mem_flatMap.mpr
        ⟨(0 + jigTallMagnetSpec.cell_pitch_x * (((0 : ℕ) : ℚ)
            - ((jigTallMagnetSpec.cell_count_x : ℚ) - 1) / 2),
          0 + jigTallMagnetSpec.cell_pitch_y * (((0 : ℕ) : ℚ)
            - ((jigTallMagnetSpec.cell_count_y : ℚ) - 1) / 2)),
          List.mem_product.mpr ⟨hcx, hcy⟩,
          List.mem_map.mpr
            ⟨(0 + jigTallMagnetSpec.cell_pitch_x * (((0 : ℕ) : ℚ)
                - ((jigTallMagnetSpec.cell_count_x : ℚ) - 1) / 2)
                + jigTallMagnetSpec.dot_pitch_x * (((0 : ℕ) : ℚ)
                - (((2 : ℕ) : ℚ) - 1) / 2),
              0 + jigTallMagnetSpec.cell_pitch_y * (((0 : ℕ) : ℚ)
                - ((jigTallMagnetSpec.cell_count_y : ℚ) - 1) / 2)
                + jigTallMagnetSpec.dot_pitch_y * (((0 : ℕ) : ℚ)
                - (((3 : ℕ) : ℚ) - 1) / 2)),
              List.mem_product.mpr ⟨hdx, hdy⟩, rfl⟩⟩
    · norm_num [Jig.MagnetPocket.centerZ, jigTallMagnetSpec]

/-- C5 amended: under parameter bounds that include the defaults, the flat
engine's pocket centroids lie strictly inside the slab; for the curved engine
the pocket centroid lies outside the body cylinder by design (the prism
overshoots the surface, see the counterexample), but the pocket's anchor
point — the translated reference point at radius
`pulley_body_od/2 - magnet_h` — lies strictly inside the body cylinder. -/
theorem pocket_center_envelope_amended (j : Jig.Spec) (s : Pulley.Spec)
    (h1 : 0 ≤ j.dot_pitch_x) (h2 : j.dot_pitch_x < j.cell_pitch_x + 10)
    (h3 : 0 ≤ j.dot_pitch_y) (h4 : 2 * j.dot_pitch_y < j.cell_pitch_y + 10)
    (h5 : 0 ≤ j.cell_pitch_x) (h6 : 0 ≤ j.cell_pitch_y)
    (h7 : 0 ≤ j.arm_width_on_long_side) (h8 : 0 ≤ j.arm_gap_width)
    (h9 : 0 < j.magnet_h) (h10 : j.magnet_h < 2 * j.total_z)
    (p1 : 0 < s.magnet_h) (p2 : s.magnet_h * 4 < s.pulley_body_circumference)
    (p3 : 0 ≤ s.dot_pitch_y) (p4 : 2 * s.dot_pitch_y < s.pulley_body_length) :
    (∀ q ∈ Jig.jigPockets j,
        |q.centerX| < j.total_x / 2 ∧ |q.centerY| < j.total_y / 2
          ∧ 0 < q.centerZ ∧ q.centerZ < j.total_z)
      ∧ ∀ p ∈ Pulley.pulleyPockets s,
          Pulley.radialDistSq (Pulley.PulleyPocket.anchor p)
              < (s.pulley_body_od / 2) ^ 2
            ∧ |(Pulley.PulleyPocket.anchor p).2.2|
              < ((s.pulley_body_length : ℚ) : ℝ) / 2 := by
  constructor
  · intro q hq
    obtain ⟨cx, cy, dx, dy, hcx, hcy, hdx, hdy, rfl⟩ := jigPockets_shape j q hq
    have hnx : 1 ≤ j.cell_count_x := by
      obtain ⟨i, hi, _⟩ := evenlySpaceWithCenter_mem _ _ _ cx hcx
      omega
    have hny : 1 ≤ j.cell_count_y := by
      obtain ⟨i, hi, _⟩ := evenlySpaceWithCenter_mem _ _ _ cy hcy
      omega
    have bx1 := evenlySpaceWithCenter_abs_le _ _ _ h5 cx hcx
    have by1 := evenlySpaceWithCenter_abs_le _ _ _ h6 cy hcy
    have bx2 := evenlySpaceWithCenter_abs_le 2 j.dot_pitch_x cx h1 dx hdx
    have by2 := evenlySpaceWithCenter_abs_le 3 j.dot_pitch_y cy h3 dy hdy
    rw [sub_zero] at bx1 by1
    norm_num at bx2 by2
    have hax : |dx| ≤ |dx - cx| + |cx| := by
      calc |dx| = |(dx - cx) + cx| := by rw [sub_add_cancel]
        _ ≤ |dx - cx| + |cx| := abs_add _ _
    have hay : |dy| ≤ |dy - cy| + |cy| := by
      calc |dy| = |(dy - cy) + cy| := by rw [sub_add_cancel]
        _ ≤ |dy - cy| + |cy| := abs_add _ _
    refine ⟨?_, ?_, ?_, ?_⟩
    · show |dx| < j.total_x / 2
      unfold Jig.Spec.total_x
      nlinarith [bx1, bx2, hax, h2, h7, h8, h5]
    · show |dy| < j.total_y / 2
      unfold Jig.Spec.total_y
      nlinarith [by1, by2, hay, h4, h6]
    · show 0 < Jig.MagnetPocket.centerZ _
      unfold Jig.MagnetPocket.centerZ
      show 0 < (j.total_z - j.magnet_h + j.total_z) / 2
      linarith
    · show Jig.MagnetPocket.centerZ _ < j.total_z
      unfold Jig.MagnetPocket.centerZ
      show (j.total_z - j.magnet_h + j.total_z) / 2 < j.total_z
      linarith
  · intro p hp
    obtain ⟨z, θ, hz, hL, hxf⟩ := pulleyPockets_shape s p hp
    have hzb : |z| ≤ s.dot_pitch_y := by
      have hb := evenlySpaceWithCenter_abs_le 3 s.dot_pitch_y 0 p3 z hz
      rw [sub_zero] at hb
      norm_num at hb
      exact hb
    have hC : (0 : ℚ) < s.pulley_body_circumference := lt_trans (by positivity) p2
    have hCr : (0 : ℝ) < ((s.pulley_body_circumference : ℚ) : ℝ) := by
      exact_mod_cast hC
    have hpi4 : Real.pi < 4 := by linarith [Real.pi_lt_d2]
    have hodC : s.pulley_body_od
        = ((s.pulley_body_circumference : ℚ) : ℝ) / Real.pi := rfl
    have hmhr : (0 : ℝ) < ((s.magnet_h : ℚ) : ℝ) := by exact_mod_cast p1
    have hmhod : ((s.magnet_h : ℚ) : ℝ) < s.pulley_body_od := by
      rw [hodC]
      have h4C : ((s.magnet_h : ℚ) : ℝ) * 4
          < ((s.pulley_body_circumference : ℚ) : ℝ) := by exact_mod_cast p2
      have hdivs := div_lt_div_of_pos_left hCr Real.pi_pos hpi4
      linarith
    have hod2 : (0 : ℝ) < s.pulley_body_od / 2 := by
      rw [hodC]
      positivity
    constructor
    · unfold Pulley.PulleyPocket.anchor
      rw [hxf, radialDistSq_applyChain, zero_add]
      apply sq_lt_sq' <;> linarith
    · unfold Pulley.PulleyPocket.anchor
      rw [hxf, applyChain_shape]
      show |((z : ℚ) : ℝ)| < ((s.pulley_body_length : ℚ) : ℝ) / 2
      have hzr : |((z : ℚ) : ℝ)| ≤ ((s.dot_pitch_y : ℚ) : ℝ) := by
        rw [← Rat.cast_abs]
        exact_mod_cast hzb
      have hlen : 2 * ((s.dot_pitch_y : ℚ) : ℝ)
          < ((s.pulley_body_length : ℚ) : ℝ) := by exact_mod_cast p4
      linarith

/-- Witness for the amended C5 at the default flat-jig and pulley Specs. -/
theorem pocket_center_envelope_amended_witness :
    ((0 : ℚ) ≤ jigDefault.dot_pitch_x
        ∧ jigDefault.dot_pitch_x < jigDefault.cell_pitch_x + 10
        ∧ (0 : ℚ) ≤ jigDefault.dot_pitch_y
        ∧ 2 * jigDefault.dot_pitch_y < jigDefault.cell_pitch_y + 10
        ∧ (0 : ℚ) ≤ jigDefault.cell_pitch_x
        ∧ (0 : ℚ) ≤ jigDefault.cell_pitch_y
        ∧ (0 : ℚ) ≤ jigDefault.arm_width_on_long_side
        ∧ (0 : ℚ) ≤ jigDefault.arm_gap_width
        ∧ (0 : ℚ) < jigDefault.magnet_h
        ∧ jigDefault.magnet_h < 2 * jigDefault.total_z
        ∧ (0 : ℚ) < pulleyDefault.magnet_h
        ∧ pulleyDefault.magnet_h * 4 < pulleyDefault.pulley_body_circumference
        ∧ (0 : ℚ) ≤ pulleyDefault.dot_pitch_y
        ∧ 2 * pulleyDefault.dot_pitch_y < pulleyDefault.pulley_body_length)
      ∧ ((∀ q ∈ Jig.jigPockets jigDefault,
          |q.centerX| < jigDefault.total_x / 2 ∧ |q.centerY| < jigDefault.total_y / 2
            ∧ 0 < q.centerZ ∧ q.centerZ < jigDefault.total_z)
        ∧ ∀ p ∈ Pulley.pulleyPockets pulleyDefault,
            Pulley.radialDistSq (Pulley.PulleyPocket.anchor p)
                < (Pulley.Spec.pulley_body_od pulleyDefault / 2) ^ 2
              ∧ |(Pulley.PulleyPocket.anchor p).2.2|
                < ((Pulley.Spec.pulley_body_length pulleyDefault : ℚ) : ℝ) / 2) :=
  ⟨⟨by norm_num [jigDefault], by norm_num [jigDefault], by norm_num [jigDefault],
      by norm_num [jigDefault], by norm_num [jigDefault], by norm_num [jigDefault],
      by norm_num [jigDefault], by norm_num [jigDefault], by norm_num [jigDefault],
      by norm_num [jigDefault, Jig.Spec.total_z, Jig.Spec.total_x],
      by norm_num [pulleyDefault],
      by norm_num [pulleyDefault, Pulley.Spec.pulley_body_circumference],
      by norm_num [pulleyDefault], by norm_num [pulleyDefault]⟩,
    pocket_center_envelope_amended jigDefault pulleyDefault
      (by norm_num [jigDefault]) (by norm_num [jigDefault]) (by norm_num [jigDefault])
      (by norm_num [jigDefault]) (by norm_num [jigDefault]) (by norm_num [jigDefault])
      (by norm_num [jigDefault]) (by norm_num [jigDefault]) (by norm_num [jigDefault])
      (by norm_num [jigDefault, Jig.Spec.total_z, Jig.Spec.total_x])
      (by norm_num [pulleyDefault])
      (by norm_num [pulleyDefault, Pulley.Spec.pulley_body_circumference])
      (by norm_num [pulleyDefault]) (by norm_num [pulleyDefault])⟩

/-- Witness for C2 at the default pulley `Spec`, cell 2, dot offset (1, 2). -/
theorem pulley_pocket_construction_witness :
    (2 < pulleyDefault.cell_count_around_circumference ∧ 1 < 2 ∧ 2 < 3)
      ∧ ((Pulley.pulleyPockets pulleyDefault).length
            = pulleyDefault.cell_count_around_circumference * 6
        ∧ (Pulley.pulleyPockets pulleyDefault)[2 * 6 + (1 * 3 + 2)]? =
          some { flatRadius := pulleyDefault.magnet_d / 2 - 0.1
                 prismLength := 5
                 xforms := [Pulley.Xform.rotY 90,
                   Pulley.Xform.translate
                     (pulleyDefault.pulley_body_od / 2 - (pulleyDefault.magnet_h : ℝ)) 0
                     ((((2 : ℕ) : ℚ) - 1) * pulleyDefault.dot_pitch_y),
                   Pulley.Xform.rotZ
                     (((2 : ℕ) : ℚ) * 360
                         / (pulleyDefault.cell_count_around_circumference : ℚ)
                       + pulleyDefault.circumference_mm_to_angle
                           ((((1 : ℕ) : ℚ) - 1 / 2) * pulleyDefault.dot_pitch_x))] }) :=
  ⟨⟨by norm_num [pulleyDefault], by omega, by omega⟩,
    pulley_pocket_construction pulleyDefault 2 1 2
      (by norm_num [pulleyDefault]) (by omega) (by omega)⟩

/-- Witness for C10 at the default pulley `Spec`. -/
theorem pulley_division_safe_witness :
    (1 ≤ pulleyDefault.cell_count_around_circumference
        ∧ 0 < pulleyDefault.cell_pitch_x)
      ∧ (pulleyDefault.pulley_body_circumference ≠ 0
        ∧ (∀ mm : ℚ, pulleyDefault.circumference_mm_to_angleChecked mm
            = Except.ok (pulleyDefault.circumference_mm_to_angle mm))
        ∧ (pulleyDefault.cell_count_around_circumference : ℚ) ≠ 0
        ∧ (∀ cell_idx : ℕ, pulleyDefault.baseAngleChecked cell_idx
            = Except.ok ((cell_idx : ℚ) * 360
                / (pulleyDefault.cell_count_around_circumference : ℚ)))) :=
  ⟨⟨by norm_num [pulleyDefault], by norm_num [pulleyDefault]⟩,
    pulley_division_safe pulleyDefault (by norm_num [pulleyDefault])
      (by norm_num [pulleyDefault])⟩

end BrailleDisplay
